import Mathlib

set_option maxHeartbeats 1000000

set_option linter.unusedVariables false

/-! # go-plugin internal/runner: a shallow embedding

This file embeds the two runner implementations of the repository's
internal/runner package (cmd_runner.go and container_runner.go) and proves
the behavioural properties stated for them.

Strings are embedded as `List Char`, in the style of verified models of
string libraries.  External collaborators (the OS process API, the Docker
engine client, pipe creation) are out of scope of the package; every runner
operation therefore takes the outcome each collaborator reported as an
explicit argument and computes the runner's state change, its effects on
owned resources, and its return value, following the Go method bodies. -/

/-- The character a digit d < 10 renders to, as in Go's fmt package %d verb. -/
def digitChar (d : Nat) : Char := Char.ofNat (48 + d)

/-- Fuel-indexed decimal rendering; fuel n+1 always suffices for n. -/
def natDecimalCore (fuel n : Nat) : List Char :=
  match fuel with
  | 0 => []
  | fuel' + 1 =>
    if n < 10 then [digitChar n]
    else natDecimalCore fuel' (n / 10) ++ [digitChar (n % 10)]

/-- Decimal rendering of a natural number: Go's fmt.Sprintf %d verb,
restricted to the non-negative values (pids, gids) the runners print. -/
def natDecimal (n : Nat) : List Char := natDecimalCore (n + 1) n

/-- Go strings.TrimPrefix: drop pre from the front of s when it is a
leading part of s, otherwise return s unchanged. -/
def trimPrefixList (s pre : List Char) : List Char :=
  if pre.isPrefixOf s then s.drop pre.length else s

/-- Prepend a character onto the first piece of a split, starting a new
piece if there is none. Helper for `splitSlash`. -/
def consHead (c : Char) : List (List Char) → List (List Char)
  | [] => [[c]]
  | s :: ss => (c :: s) :: ss

/-- Go strings.Split(s, "/"): the list of '/'-separated pieces of s,
including empty pieces. -/
def splitSlash : List Char → List (List Char)
  | [] => [[]]
  | c :: rest => if c = '/' then [] :: splitSlash rest else consHead c (splitSlash rest)

/-- Join pieces with a '/' separator, as in Go strings.Join(pieces, "/"). -/
def joinSlash : List (List Char) → List Char
  | [] => []
  | [s] => s
  | s :: ss => s ++ '/' :: joinSlash ss

/-- Whether a path begins with '/', i.e. path[0] == '/' in Go path.Clean. -/
def isRooted (p : List Char) : Bool :=
  match p with
  | [] => false
  | c :: _ => c == '/'

/-- One step of Go path.Clean's element processing, phrased on the stack of
output path elements (topmost element first): empty and "." elements are
skipped; ".." pops an element (rooted paths drop ".." at the root,
relative paths keep leading ".." runs); anything else is pushed. -/
def cleanStep (rooted : Bool) (stack : List (List Char)) (seg : List Char) : List (List Char) :=
  if seg = [] ∨ seg = ['.'] then stack
  else if seg = ['.', '.'] then
    if rooted then stack.tail
    else
      match stack with
      | [] => [['.', '.']]
      | top :: rest => if top = ['.', '.'] then ['.', '.'] :: top :: rest else rest
  else seg :: stack

/-- Assemble Go path.Clean's output from the element stack: rooted results
get a leading '/', and an empty relative result becomes ".". -/
def cleanOutput (rooted : Bool) (stack : List (List Char)) : List Char :=
  if rooted then '/' :: joinSlash stack.reverse
  else if joinSlash stack.reverse = [] then ['.'] else joinSlash stack.reverse

/-- Go path.Clean: shortest lexically equivalent path, per the four rewrite
rules its documentation states (drop empty and "." elements, resolve ".."
against preceding elements, drop ".." at the root; empty input is "."). -/
def pathClean (p : List Char) : List Char :=
  if p = [] then ['.']
  else cleanOutput (isRooted p) (List.foldl (cleanStep (isRooted p)) [] (splitSlash p))

/-- Go path.Join restricted to two elements, as called by the container
runner: concatenate the non-empty elements with '/' and Clean the result;
all-empty input gives the empty path. -/
def pathJoin (a b : List Char) : List Char :=
  if a ≠ [] then pathClean (a ++ '/' :: b)
  else if b ≠ [] then pathClean b
  else []

/-- net.Addr values the runners produce: a TCP address as parsed by
net.ResolveTCPAddr (kept abstract), or a Unix address carrying the
socket path, as net.ResolveUnixAddr builds for network "unix". -/
inductive NetAddr where
  | tcpAddr (address : List Char)
  | unixAddr (name : List Char)
deriving DecidableEq

/-- The slice of exec.Cmd that the runners read and write: the executable
path and the environment vector. -/
structure ExecCmd where
  path : List Char
  env : List (List Char)
deriving DecidableEq

/-- Docker mount.BindOptions as set by the container runner. -/
structure BindOptions where
  propagation : List Char
  nonRecursive : Bool
deriving DecidableEq

/-- Docker mount.Mount, with the engine constants (mount type, propagation
mode, consistency) embedded as their wire strings. -/
structure Mount where
  type : List Char
  source : List Char
  target : List Char
  readOnly : Bool
  bindOptions : Option BindOptions
  consistency : List Char
deriving DecidableEq

/-- The slice of the engine's container.Config the runner reads and
writes: the image reference and the environment vector. -/
structure ContainerCfg where
  image : List Char
  env : List (List Char)
deriving DecidableEq

/-- The slice of the engine's container.HostConfig the runner writes: the
mount list. -/
structure HostConfig where
  mounts : List Mount
deriving DecidableEq

/-- Modelled from the spec: the repository's config.ContainerConfig bundle
is not under src/; its shape follows the spec's description (container
config with image and env override, host config including the mount list,
network config, and an optional numeric unix socket group id). -/
structure ContainerConfig where
  containerConfig : ContainerCfg
  hostConfig : HostConfig
  networkConfig : Unit
  unixSocketGroup : Nat
deriving DecidableEq

/-- Modelled from the spec: internal/constants is not under src/; the spec
names this environment variable PLUGIN_UNIX_SOCKET_DIR. -/
def envUnixSocketDir : List Char := ("PLUGIN_UNIX_SOCKET_DIR").toList

/-- Modelled from the spec: internal/constants is not under src/; the spec
names this environment variable PLUGIN_UNIX_SOCKET_GROUP. -/
def envUnixSocketGroup : List Char := ("PLUGIN_UNIX_SOCKET_GROUP").toList

/-- The fixed container-side rendezvous directory, the containerSocketDir
constant of NewContainerRunner. -/
def containerSocketDir : List Char := ("/tmp").toList

/-- CmdRunner state: the snapshotted executable path, the pid field
(a Go int whose zero value is 0), and cmd.Process (nil until Start
succeeds, then carrying the child's pid). Stream handles are opaque to
every claim and are not carried. -/
structure CmdRunner where
  path : List Char
  pid : Nat
  process : Option Nat
deriving DecidableEq

/-- NewCmdRunner: obtains the two pipe reader handles (each acquisition
may fail, aborting construction) and snapshots cmd.Path; pid starts at
the int zero value and cmd.Process is nil. -/
def NewCmdRunner (cmd : ExecCmd) (stdoutPipeRes stderrPipeRes : Except (List Char) Unit) :
    Except (List Char) CmdRunner :=
  match stdoutPipeRes with
  | Except.error e => Except.error e
  | Except.ok _ =>
    match stderrPipeRes with
    | Except.error e => Except.error e
    | Except.ok _ => Except.ok { path := cmd.path, pid := 0, process := none }

/-- CmdRunner.Start: on spawn success the OS assigns pid p, which is
snapshotted into the runner; on failure the state is unchanged. -/
def CmdRunner.Start (c : CmdRunner) (startRes : Except (List Char) Nat) :
    CmdRunner × Except (List Char) Unit :=
  match startRes with
  | Except.error e => (c, Except.error e)
  | Except.ok p => ({ path := c.path, pid := p, process := some p }, Except.ok ())

/-- CmdRunner.Wait: delegates to cmd.Wait and returns its result; no
field is assigned. -/
def CmdRunner.Wait (c : CmdRunner) (waitRes : Except (List Char) Unit) :
    CmdRunner × Except (List Char) Unit :=
  (c, waitRes)

/-- CmdRunner.Kill: if cmd.Process is non-nil, sends the OS kill signal
and returns that call's result, else returns nil; the Bool records
whether a signal was sent; no field is assigned. -/
def CmdRunner.Kill (c : CmdRunner) (osKillRes : Except (List Char) Unit) :
    CmdRunner × Bool × Except (List Char) Unit :=
  match c.process with
  | some _ => (c, true, osKillRes)
  | none => (c, false, Except.ok ())

/-- CmdRunner.ResolveAddr: "tcp" delegates to net.ResolveTCPAddr (passed
in as the external parser), "unix" wraps the path via net.ResolveUnixAddr,
anything else is an unknown address type error. -/
def CmdRunner.ResolveAddr (c : CmdRunner)
    (resolveTCPAddr : List Char → Except (List Char) NetAddr)
    (network address : List Char) : Except (List Char) NetAddr :=
  if network = ("tcp").toList then resolveTCPAddr address
  else if network = ("unix").toList then Except.ok (NetAddr.unixAddr address)
  else Except.error (("Unknown address type: ").toList ++ address)

/-- CmdRunner.Name: the snapshotted executable path. -/
def CmdRunner.Name (c : CmdRunner) : List Char := c.path

/-- CmdRunner.ID: fmt.Sprintf %d of the pid field. -/
def CmdRunner.ID (c : CmdRunner) : List Char := natDecimal c.pid

/-- ContainerRunner state: the host rendezvous directory, the snapshotted
image reference, and the container id (the string zero value until
ContainerCreate succeeds). Logger, engine client handle and stream
handles are opaque to every claim and are not carried. -/
structure ContainerRunner where
  hostSocketDir : List Char
  image : List Char
  id : List Char
deriving DecidableEq

/-- NewContainerRunner: builds the engine client (whose failure aborts
construction before any mutation), then appends the rendezvous bind mount
to the host config, appends the rendezvous environment variables to the
command's environment (the group variable only for a non-zero group id),
and copies the augmented environment into the container config. The
mutated cmd and cfg are returned alongside the runner. -/
def NewContainerRunner (cmd : ExecCmd) (cfg : ContainerConfig) (hostSocketDir : List Char)
    (clientRes : Except (List Char) Unit) :
    Except (List Char) (ContainerRunner × ExecCmd × ContainerConfig) :=
  match clientRes with
  | Except.error e => Except.error e
  | Except.ok _ =>
    let m : Mount :=
      { type := ("bind").toList
        source := hostSocketDir
        target := containerSocketDir
        readOnly := false
        bindOptions := some { propagation := ("rshared").toList, nonRecursive := true }
        consistency := ("default").toList }
    let env1 := cmd.env ++ [envUnixSocketDir ++ '=' :: containerSocketDir]
    let env2 :=
      if cfg.unixSocketGroup ≠ 0 then
        env1 ++ [envUnixSocketGroup ++ '=' :: natDecimal cfg.unixSocketGroup]
      else env1
    let cmd2 : ExecCmd := { path := cmd.path, env := env2 }
    let cfg2 : ContainerConfig :=
      { containerConfig := { image := cfg.containerConfig.image, env := env2 }
        hostConfig := { mounts := cfg.hostConfig.mounts ++ [m] }
        networkConfig := ()
        unixSocketGroup := cfg.unixSocketGroup }
    Except.ok
      ({ hostSocketDir := hostSocketDir, image := cfg.containerConfig.image, id := [] },
        cmd2, cfg2)

/-- ContainerRunner.Start: ContainerCreate assigns the id (recorded even
if a later step fails), then ContainerStart and ContainerLogs run; the
first failing engine call's error is returned. -/
def ContainerRunner.Start (c : ContainerRunner)
    (createRes : Except (List Char) (List Char))
    (startRes logsRes : Except (List Char) Unit) :
    ContainerRunner × Except (List Char) Unit :=
  match createRes with
  | Except.error e => (c, Except.error e)
  | Except.ok respID =>
    let c2 : ContainerRunner := { hostSocketDir := c.hostSocketDir, image := c.image, id := respID }
    match startRes with
    | Except.error e => (c2, Except.error e)
    | Except.ok _ =>
      match logsRes with
      | Except.error e => (c2, Except.error e)
      | Except.ok _ => (c2, Except.ok ())

/-- The message ContainerWait delivered first: either a status (whose
Error field, when non-nil, carries a message) on the status channel, or a
possibly-nil error on the error channel. -/
inductive WaitMsg where
  | statusCh (err : Option (List Char))
  | errCh (err : Option (List Char))
deriving DecidableEq

/-- ContainerRunner.Wait: a non-nil error-channel value is returned as
is; a nil one falls through to the final return nil; a status with a
non-nil Error field becomes errors.New of its message, otherwise nil.
No field is assigned. -/
def ContainerRunner.Wait (c : ContainerRunner) (msg : WaitMsg) :
    ContainerRunner × Except (List Char) Unit :=
  match msg with
  | WaitMsg.errCh (some e) => (c, Except.error e)
  | WaitMsg.errCh none => (c, Except.ok ())
  | WaitMsg.statusCh (some m) => (c, Except.error m)
  | WaitMsg.statusCh none => (c, Except.ok ())

/-- The effects of one ContainerRunner.Kill call: whether ContainerStop
was requested, whether the engine client was closed, and which directory
os.RemoveAll removed. -/
structure KillEffects where
  stopRequested : Bool
  clientClosed : Bool
  removedDir : Option (List Char)
deriving DecidableEq

/-- ContainerRunner.Kill: the deferred client close and deferred
recursive removal of the host rendezvous directory always run; when a
container id has been assigned, ContainerStop is requested and its result
returned, otherwise the return is nil. No field is assigned. -/
def ContainerRunner.Kill (c : ContainerRunner) (stopRes : Except (List Char) Unit) :
    ContainerRunner × KillEffects × Except (List Char) Unit :=
  if c.id ≠ [] then
    (c, { stopRequested := true, clientClosed := true, removedDir := some c.hostSocketDir },
      stopRes)
  else
    (c, { stopRequested := false, clientClosed := true, removedDir := some c.hostSocketDir },
      Except.ok ())

/-- ContainerRunner.ResolveAddr: only network "unix" is supported; the
advertised address must carry the sentinel, which is trimmed and the
remainder joined (path.Join) onto the host rendezvous directory; the
result is wrapped by net.ResolveUnixAddr, which for network "unix" always
succeeds with the given path. -/
def ContainerRunner.ResolveAddr (c : ContainerRunner) (network address : List Char) :
    Except (List Char) NetAddr :=
  if network = ("unix").toList then
    if (("PLUGIN_UNIX_SOCKET_DIR:").toList).isPrefixOf address = false then
      Except.error (("plugin is running inside container but needs an update to be compatible").toList)
    else
      Except.ok (NetAddr.unixAddr
        (pathJoin c.hostSocketDir (trimPrefixList address (("PLUGIN_UNIX_SOCKET_DIR:").toList))))
  else
    Except.error ((("unsupported address: ").toList ++ network) ++ ((", ").toList ++ address))

/-- ContainerRunner.Name: the snapshotted image reference. -/
def ContainerRunner.Name (c : ContainerRunner) : List Char := c.image

/-- ContainerRunner.ID: the container id field. -/
def ContainerRunner.ID (c : ContainerRunner) : List Char := c.id

deriving instance DecidableEq for Except

/-! ## Helper lemmas about the embedded Go string and path functions -/

theorem natDecimal_ne_nil (n : Nat) : natDecimal n ≠ [] := by
  simp only [natDecimal, natDecimalCore]
  split <;> simp

theorem consHead_ne_nil (c : Char) (l : List (List Char)) : consHead c l ≠ [] := by
  cases l <;> simp [consHead]

theorem splitSlash_ne_nil (p : List Char) : splitSlash p ≠ [] := by
  cases p with
  | nil => simp [splitSlash]
  | cons c rest =>
    simp only [splitSlash]
    split
    · simp
    · exact consHead_ne_nil c (splitSlash rest)

theorem consHead_append (c : Char) (l l2 : List (List Char)) (h : l ≠ []) :
    consHead c (l ++ l2) = consHead c l ++ l2 := by
  cases l with
  | nil => exact absurd rfl h
  | cons s ss => simp [consHead]

theorem splitSlash_append (h b : List Char) :
    splitSlash (h ++ '/' :: b) = splitSlash h ++ splitSlash b := by
  induction h with
  | nil => simp [splitSlash]
  | cons c cs ih =>
    show splitSlash (c :: (cs ++ '/' :: b)) = splitSlash (c :: cs) ++ splitSlash b
    by_cases hc : c = '/'
    · simp [splitSlash, hc, ih]
    · simp only [splitSlash, if_neg hc]
      rw [ih, consHead_append c (splitSlash cs) (splitSlash b) (splitSlash_ne_nil cs)]

theorem splitSlash_no_slash (b : List Char) (hb : '/' ∉ b) : splitSlash b = [b] := by
  induction b with
  | nil => rfl
  | cons c cs ih =>
    simp only [List.mem_cons, not_or] at hb
    have hc : ¬ c = '/' := fun hcc => hb.1 hcc.symm
    simp [splitSlash, hc, ih hb.2, consHead]

theorem joinSlash_nil : joinSlash [] = [] := rfl

theorem joinSlash_single (s : List Char) : joinSlash [s] = s := rfl

theorem joinSlash_cons2 (s t : List Char) (ss : List (List Char)) :
    joinSlash (s :: t :: ss) = s ++ '/' :: joinSlash (t :: ss) := rfl

theorem joinSlash_append_single (l : List (List Char)) (b : List Char) (h : l ≠ []) :
    joinSlash (l ++ [b]) = joinSlash l ++ '/' :: b := by
  induction l with
  | nil => exact absurd rfl h
  | cons x xs ih =>
    cases xs with
    | nil => simp [joinSlash_cons2, joinSlash_single]
    | cons y ys =>
      have ihy := ih (by simp)
      simp only [List.cons_append] at ihy ⊢
      rw [joinSlash_cons2, joinSlash_cons2, ihy]
      simp

theorem cleanStep_push (r : Bool) (S : List (List Char)) (b : List Char)
    (h0 : b ≠ []) (h2 : b ≠ ['.']) (h3 : b ≠ ['.', '.']) :
    cleanStep r S b = b :: S := by
  simp [cleanStep, h0, h2, h3]

theorem cleanStep_empty (r : Bool) (S : List (List Char)) :
    cleanStep r S [] = S := by
  simp [cleanStep]

theorem isRooted_append (h l : List Char) (hne : h ≠ []) :
    isRooted (h ++ l) = isRooted h := by
  cases h with
  | nil => exact absurd rfl hne
  | cons c cs => rfl

theorem cleanOutput_true (S : List (List Char)) :
    cleanOutput true S = '/' :: joinSlash S.reverse := by
  simp [cleanOutput]

theorem cleanOutput_false (S : List (List Char)) :
    cleanOutput false S =
      if joinSlash S.reverse = [] then ['.'] else joinSlash S.reverse := by
  simp [cleanOutput]

/-- Appending one slash-free non-dot element to a path that path.Clean
leaves unchanged yields another Clean fixed point. -/
theorem pathClean_append_seg (h b : List Char) (hne : h ≠ [])
    (hclean : pathClean h = h) (h1 : h ≠ ['/']) (h2 : h ≠ ['.'])
    (hb0 : b ≠ []) (hb1 : '/' ∉ b) (hb2 : b ≠ ['.']) (hb3 : b ≠ ['.', '.']) :
    pathClean (h ++ '/' :: b) = h ++ '/' :: b := by
  have hne2 : h ++ '/' :: b ≠ [] := by simp
  have hM : cleanOutput (isRooted h) (List.foldl (cleanStep (isRooted h)) [] (splitSlash h)) = h := by
    have hcl := hclean
    unfold pathClean at hcl
    rwa [if_neg hne] at hcl
  unfold pathClean
  rw [if_neg hne2, isRooted_append h ('/' :: b) hne, splitSlash_append,
    splitSlash_no_slash b hb1, List.foldl_append]
  simp only [List.foldl_cons, List.foldl_nil]
  rw [cleanStep_push _ _ _ hb0 hb2 hb3]
  generalize hS : List.foldl (cleanStep (isRooted h)) [] (splitSlash h) = S at hM ⊢
  cases S with
  | nil =>
    cases hr : isRooted h with
    | true =>
      rw [hr, cleanOutput_true] at hM
      simp only [List.reverse_nil, joinSlash_nil] at hM
      exact absurd hM.symm h1
    | false =>
      rw [hr, cleanOutput_false] at hM
      have hM2 : (['.'] : List Char) = h := by simpa using hM
      exact absurd hM2.symm h2
  | cons s ss =>
    have hrev : (s :: ss).reverse ≠ [] := by simp
    cases hr : isRooted h with
    | true =>
      rw [hr, cleanOutput_true] at hM
      rw [cleanOutput_true, List.reverse_cons, joinSlash_append_single _ _ hrev, ← hM]
      simp
    | false =>
      rw [hr, cleanOutput_false] at hM
      rw [cleanOutput_false, List.reverse_cons, joinSlash_append_single _ _ hrev]
      by_cases hO : joinSlash (s :: ss).reverse = []
      · rw [if_pos hO] at hM
        exact absurd hM.symm h2
      · rw [if_neg hO] at hM
        have hO2 : ¬ joinSlash (s :: ss).reverse ++ '/' :: b = [] := by simp
        rw [if_neg hO2, hM]

/-- A trailing slash is removed by path.Clean before anything else matters. -/
theorem pathClean_trailing (h : List Char) (hne : h ≠ []) :
    pathClean (h ++ ['/']) = pathClean h := by
  have hne2 : h ++ ['/'] ≠ [] := by simp
  unfold pathClean
  rw [if_neg hne2, if_neg hne, isRooted_append h ['/'] hne, splitSlash_append]
  simp [splitSlash, List.foldl_append, cleanStep_empty]

theorem trimPrefixList_append (pre rest : List Char) :
    trimPrefixList (pre ++ rest) pre = rest := by
  have hp : pre.isPrefixOf (pre ++ rest) = true :=
    List.isPrefixOf_iff_prefix.mpr (List.prefix_append pre rest)
  simp [trimPrefixList, hp, List.drop_left]

/-! ## Claim theorems -/

/-- C1: for the container runner with host rendezvous directory hostDir (a
cleaned path, neither the bare root nor "."), and any valid
container-relative basename b (non-empty, slash-free, neither "." nor
".."), ResolveAddr("unix", "PLUGIN_UNIX_SOCKET_DIR:" ++ b) succeeds and
yields a Unix address whose path equals hostDir ++ "/" ++ b. -/
theorem containerResolveAddr_rewrites_basename (c : ContainerRunner) (b : List Char)
    (hne : c.hostSocketDir ≠ []) (hclean : pathClean c.hostSocketDir = c.hostSocketDir)
    (h1 : c.hostSocketDir ≠ ['/']) (h2 : c.hostSocketDir ≠ ['.'])
    (hb0 : b ≠ []) (hb1 : '/' ∉ b) (hb2 : b ≠ ['.']) (hb3 : b ≠ ['.', '.']) :
    ContainerRunner.ResolveAddr c (("unix").toList) ((("PLUGIN_UNIX_SOCKET_DIR:").toList) ++ b)
      = Except.ok (NetAddr.unixAddr (c.hostSocketDir ++ '/' :: b)) := by
  unfold ContainerRunner.ResolveAddr
  rw [if_pos rfl]
  have hp : (("PLUGIN_UNIX_SOCKET_DIR:").toList).isPrefixOf
      ((("PLUGIN_UNIX_SOCKET_DIR:").toList) ++ b) = true :=
    List.isPrefixOf_iff_prefix.mpr (List.prefix_append _ _)
  rw [hp, if_neg (by simp : ¬ (true = false)), trimPrefixList_append]
  unfold pathJoin
  rw [if_pos hne, pathClean_append_seg c.hostSocketDir b hne hclean h1 h2 hb0 hb1 hb2 hb3]

/-- C1 witness: host directory "/tmp/abc" and basename "plugin.sock". -/
theorem containerResolveAddr_rewrites_basename_witness :
    ContainerRunner.ResolveAddr
        { hostSocketDir := ("/tmp/abc").toList, image := ("img").toList, id := [] }
        (("unix").toList) ((("PLUGIN_UNIX_SOCKET_DIR:").toList) ++ (("plugin.sock").toList))
      = Except.ok (NetAddr.unixAddr ((("/tmp/abc").toList) ++ '/' :: (("plugin.sock").toList))) :=
  containerResolveAddr_rewrites_basename
    { hostSocketDir := ("/tmp/abc").toList, image := ("img").toList, id := [] }
    (("plugin.sock").toList) (by decide) (by decide) (by decide) (by decide)
    (by decide) (by decide) (by decide) (by decide)

/-- C3: ContainerRunner.ResolveAddr returns an error exactly when the
network is not "unix" or the address lacks the sentinel, and in the
missing-sentinel case the error message says the plugin needs an update
to be compatible. -/
theorem containerResolveAddr_error_iff (c : ContainerRunner) (network address : List Char) :
    ((∃ e, ContainerRunner.ResolveAddr c network address = Except.error e) ↔
      network ≠ ("unix").toList ∨
        (("PLUGIN_UNIX_SOCKET_DIR:").toList).isPrefixOf address = false) ∧
    (network = ("unix").toList →
      (("PLUGIN_UNIX_SOCKET_DIR:").toList).isPrefixOf address = false →
      ContainerRunner.ResolveAddr c network address =
        Except.error
          (("plugin is running inside container but needs an update to be compatible").toList) ∧
      (("needs an update to be compatible").toList) <:+:
        (("plugin is running inside container but needs an update to be compatible").toList)) := by
  constructor
  · by_cases hn : network = ("unix").toList
    · subst hn
      by_cases hp : (("PLUGIN_UNIX_SOCKET_DIR:").toList).isPrefixOf address = false
      · unfold ContainerRunner.ResolveAddr
        rw [if_pos rfl, if_pos hp]
        constructor
        · intro _
          exact Or.inr hp
        · intro _
          exact ⟨_, rfl⟩
      · unfold ContainerRunner.ResolveAddr
        rw [if_pos rfl, if_neg hp]
        constructor
        · rintro ⟨e, he⟩
          exact Except.noConfusion he
        · rintro (hl | hr)
          · exact absurd rfl hl
          · exact absurd hr hp
    · unfold ContainerRunner.ResolveAddr
      rw [if_neg hn]
      constructor
      · intro _
        exact Or.inl hn
      · intro _
        exact ⟨_, rfl⟩
  · intro hn hp
    subst hn
    unfold ContainerRunner.ResolveAddr
    rw [if_pos rfl, if_pos hp]
    exact ⟨rfl, by decide⟩

/-- C3 witness: a sentinel-free unix address yields the incompatibility
error, and a tcp network yields an error. -/
theorem containerResolveAddr_error_iff_witness :
    (ContainerRunner.ResolveAddr
        { hostSocketDir := ("/tmp/abc").toList, image := ("img").toList, id := [] }
        (("unix").toList) (("/tmp/plugin.sock").toList) =
      Except.error
        (("plugin is running inside container but needs an update to be compatible").toList)) ∧
    (("needs an update to be compatible").toList) <:+:
      (("plugin is running inside container but needs an update to be compatible").toList) :=
  (containerResolveAddr_error_iff
    { hostSocketDir := ("/tmp/abc").toList, image := ("img").toList, id := [] }
    (("unix").toList) (("/tmp/plugin.sock").toList)).2 rfl (by decide)

/-- C10: the sentinel-stripped remainder is joined onto the host directory
with Go's lexically cleaning path.Join: the sentinel alone resolves to the
host directory itself; duplicate slashes and "." segments are normalized
away; ".." segments resolve outside the host rendezvous directory rather
than to the literal concatenation. -/
theorem containerResolveAddr_lexical_join (c : ContainerRunner)
    (hne : c.hostSocketDir ≠ []) (hclean : pathClean c.hostSocketDir = c.hostSocketDir) :
    ContainerRunner.ResolveAddr c (("unix").toList) (("PLUGIN_UNIX_SOCKET_DIR:").toList)
      = Except.ok (NetAddr.unixAddr c.hostSocketDir) ∧
    ContainerRunner.ResolveAddr
        { hostSocketDir := ("/tmp/abc").toList, image := ("img").toList, id := [] }
        (("unix").toList) (("PLUGIN_UNIX_SOCKET_DIR://a/./b").toList)
      = Except.ok (NetAddr.unixAddr (("/tmp/abc/a/b").toList)) ∧
    ContainerRunner.ResolveAddr
        { hostSocketDir := ("/tmp/abc").toList, image := ("img").toList, id := [] }
        (("unix").toList) (("PLUGIN_UNIX_SOCKET_DIR:../../etc/passwd").toList)
      = Except.ok (NetAddr.unixAddr (("/etc/passwd").toList)) ∧
    ("/etc/passwd").toList ≠ (("/tmp/abc").toList) ++ '/' :: (("../../etc/passwd").toList) ∧
    ((("/tmp/abc").toList).isPrefixOf (("/etc/passwd").toList)) = false := by
  refine ⟨?_, by decide, by decide, by decide, by decide⟩
  unfold ContainerRunner.ResolveAddr
  rw [if_pos rfl]
  have hp : (("PLUGIN_UNIX_SOCKET_DIR:").toList).isPrefixOf
      (("PLUGIN_UNIX_SOCKET_DIR:").toList) = true :=
    List.isPrefixOf_iff_prefix.mpr (List.prefix_refl _)
  rw [hp, if_neg (by simp : ¬ (true = false))]
  have ht : trimPrefixList (("PLUGIN_UNIX_SOCKET_DIR:").toList)
      (("PLUGIN_UNIX_SOCKET_DIR:").toList) = [] := by
    have h0 := trimPrefixList_append (("PLUGIN_UNIX_SOCKET_DIR:").toList) []
    simpa using h0
  rw [ht]
  unfold pathJoin
  rw [if_pos hne,
    show (c.hostSocketDir ++ '/' :: []) = c.hostSocketDir ++ ['/'] from rfl,
    pathClean_trailing c.hostSocketDir hne, hclean]

/-- C10 witness: the sentinel alone resolves to the host directory "/tmp/abc". -/
theorem containerResolveAddr_lexical_join_witness :
    ContainerRunner.ResolveAddr
        { hostSocketDir := ("/tmp/abc").toList, image := ("img").toList, id := [] }
        (("unix").toList) (("PLUGIN_UNIX_SOCKET_DIR:").toList)
      = Except.ok (NetAddr.unixAddr (("/tmp/abc").toList)) :=
  (containerResolveAddr_lexical_join
    { hostSocketDir := ("/tmp/abc").toList, image := ("img").toList, id := [] }
    (by decide) (by decide)).1

/-- C2 counterexample: a freshly constructed local runner (before any
Start) reports ID "0" — the decimal rendering of the pid field's int zero
value — not the empty string the claim requires of both variants. -/
theorem cmdRunnerID_zero_before_start :
    NewCmdRunner { path := ("/bin/sh").toList, env := [] } (Except.ok ()) (Except.ok ())
      = Except.ok { path := ("/bin/sh").toList, pid := 0, process := none } ∧
    CmdRunner.ID { path := ("/bin/sh").toList, pid := 0, process := none } = ['0'] ∧
    (['0'] : List Char) ≠ [] :=
  ⟨rfl, by decide, by decide⟩

/-- C2 (amended): the local runner's ID is the decimal rendering of its
pid field — "0" before Start and the child's pid (never empty) after a
successful Start; the container runner's ID is empty before Start and
equals the engine-assigned container id once creation succeeds; both are
unchanged by Wait and Kill. -/
theorem runner_id_lifecycle :
    (∀ cmd r1 r2 c, NewCmdRunner cmd r1 r2 = Except.ok c → CmdRunner.ID c = ['0']) ∧
    (∀ (c : CmdRunner) (p : Nat),
      CmdRunner.ID (CmdRunner.Start c (Except.ok p)).1 = natDecimal p ∧ natDecimal p ≠ []) ∧
    (∀ cmd cfg dir r c cmd2 cfg2,
      NewContainerRunner cmd cfg dir r = Except.ok (c, cmd2, cfg2) →
      ContainerRunner.ID c = []) ∧
    (∀ (c : ContainerRunner) (cid : List Char) r2 r3,
      ContainerRunner.ID (ContainerRunner.Start c (Except.ok cid) r2 r3).1 = cid) ∧
    (∀ (c : CmdRunner) kr wr,
      CmdRunner.ID (CmdRunner.Kill c kr).1 = CmdRunner.ID c ∧
      CmdRunner.ID (CmdRunner.Wait c wr).1 = CmdRunner.ID c) ∧
    (∀ (c : ContainerRunner) kr wm,
      ContainerRunner.ID (ContainerRunner.Kill c kr).1 = ContainerRunner.ID c ∧
      ContainerRunner.ID (ContainerRunner.Wait c wm).1 = ContainerRunner.ID c) := by
  refine ⟨?_, ?_, ?_, ?_, ?_, ?_⟩
  · intro cmd r1 r2 c h
    cases r1 with
    | error e => exact Except.noConfusion h
    | ok u =>
      cases r2 with
      | error e => exact Except.noConfusion h
      | ok v =>
        injection h with h2
        rw [← h2]
        show natDecimal 0 = ['0']
        decide
  · intro c p
    exact ⟨rfl, natDecimal_ne_nil p⟩
  · intro cmd cfg dir r c cmd2 cfg2 h
    cases r with
    | error e => exact Except.noConfusion h
    | ok u =>
      injection h with h2
      have h3 := congrArg (fun t => t.1) h2
      simp only at h3
      rw [← h3]
      rfl
  · intro c cid r2 r3
    cases r2 <;> cases r3 <;> rfl
  · intro c kr wr
    constructor
    · unfold CmdRunner.Kill
      cases c.process <;> rfl
    · rfl
  · intro c kr wm
    constructor
    · unfold ContainerRunner.Kill
      split <;> rfl
    · cases wm with
      | statusCh e => cases e <;> rfl
      | errCh e => cases e <;> rfl

/-- C2 witness: after a successful Start with pid 42 the local runner's
ID is the (non-empty) decimal rendering of 42. -/
theorem runner_id_lifecycle_witness :
    CmdRunner.ID (CmdRunner.Start { path := ("/bin/sh").toList, pid := 0, process := none }
        (Except.ok 42)).1 = natDecimal 42 ∧ natDecimal 42 ≠ [] :=
  runner_id_lifecycle.2.1 { path := ("/bin/sh").toList, pid := 0, process := none } 42

/-- C4: every Kill call closes the engine client and removes the host
rendezvous directory, whatever the stop outcome; the stop request is
issued exactly when a container id was assigned, and with no id the
returned error is nil. -/
theorem containerKill_releases_resources (c : ContainerRunner)
    (stopRes : Except (List Char) Unit) :
    (ContainerRunner.Kill c stopRes).2.1.clientClosed = true ∧
    (ContainerRunner.Kill c stopRes).2.1.removedDir = some c.hostSocketDir ∧
    ((ContainerRunner.Kill c stopRes).2.1.stopRequested = true ↔ c.id ≠ []) ∧
    (c.id = [] → (ContainerRunner.Kill c stopRes).2.2 = Except.ok ()) := by
  unfold ContainerRunner.Kill
  by_cases hid : c.id ≠ []
  · rw [if_pos hid]
    exact ⟨rfl, rfl, ⟨fun _ => hid, fun _ => rfl⟩, fun hh => absurd hh hid⟩
  · rw [if_neg hid]
    exact ⟨rfl, rfl, ⟨fun ht => absurd ht (by simp), fun hh => absurd hh hid⟩, fun _ => rfl⟩

/-- C4 witness: Kill on a started runner (id "abc") with a failing stop
call still closes the client and removes the rendezvous directory. -/
theorem containerKill_releases_resources_witness :
    (ContainerRunner.Kill
        { hostSocketDir := ("/tmp/abc").toList, image := ("img").toList, id := ("abc").toList }
        (Except.error (("stop failed").toList))).2.1.clientClosed = true ∧
    (ContainerRunner.Kill
        { hostSocketDir := ("/tmp/abc").toList, image := ("img").toList, id := ("abc").toList }
        (Except.error (("stop failed").toList))).2.1.removedDir = some (("/tmp/abc").toList) :=
  ⟨(containerKill_releases_resources
      { hostSocketDir := ("/tmp/abc").toList, image := ("img").toList, id := ("abc").toList }
      (Except.error (("stop failed").toList))).1,
    (containerKill_releases_resources
      { hostSocketDir := ("/tmp/abc").toList, image := ("img").toList, id := ("abc").toList }
      (Except.error (("stop failed").toList))).2.1⟩

/-- C5 counterexample: Kill on a container runner that was never started
(no container id) is not a pure no-op — it still closes the engine client
and removes the host rendezvous directory (returning nil). -/
theorem containerKill_before_start_removes_dir :
    (ContainerRunner.Kill
        { hostSocketDir := ("/tmp/abc").toList, image := ("img").toList, id := [] }
        (Except.ok ())).2.1.removedDir = some (("/tmp/abc").toList) ∧
    (ContainerRunner.Kill
        { hostSocketDir := ("/tmp/abc").toList, image := ("img").toList, id := [] }
        (Except.ok ())).2.1.clientClosed = true ∧
    (ContainerRunner.Kill
        { hostSocketDir := ("/tmp/abc").toList, image := ("img").toList, id := [] }
        (Except.ok ())).2.2 = Except.ok () :=
  ⟨by decide, by decide, rfl⟩

/-- C5 (amended): Kill before Start returns nil for both runners; the
local runner sends no signal and is unchanged; the container runner
issues no stop request, performing only the client close and rendezvous
directory removal; and Kill followed by Kill returns nil both times
whenever the OS or engine reports success for each stop call. -/
theorem kill_idempotent_and_prestart (camd : CmdRunner) (ccon : ContainerRunner)
    (r1 r2 : Except (List Char) Unit) :
    (camd.process = none → CmdRunner.Kill camd r1 = (camd, false, Except.ok ())) ∧
    (ccon.id = [] →
      ContainerRunner.Kill ccon r1 =
        (ccon,
          { stopRequested := false, clientClosed := true,
            removedDir := some ccon.hostSocketDir },
          Except.ok ())) ∧
    (r1 = Except.ok () → r2 = Except.ok () →
      (CmdRunner.Kill camd r1).2.2 = Except.ok () ∧
      (CmdRunner.Kill (CmdRunner.Kill camd r1).1 r2).2.2 = Except.ok () ∧
      (ContainerRunner.Kill ccon r1).2.2 = Except.ok () ∧
      (ContainerRunner.Kill (ContainerRunner.Kill ccon r1).1 r2).2.2 = Except.ok ()) := by
  refine ⟨?_, ?_, ?_⟩
  · intro hp
    unfold CmdRunner.Kill
    rw [hp]
  · intro hi
    unfold ContainerRunner.Kill
    rw [if_neg (by simp [hi])]
  · intro h1 h2
    subst h1
    subst h2
    have hcmd1 : (CmdRunner.Kill camd (Except.ok ())).1 = camd := by
      unfold CmdRunner.Kill
      cases camd.process <;> rfl
    have hcmd2 : (CmdRunner.Kill camd (Except.ok ())).2.2 = Except.ok () := by
      unfold CmdRunner.Kill
      cases camd.process <;> rfl
    have hcon1 : (ContainerRunner.Kill ccon (Except.ok ())).1 = ccon := by
      unfold ContainerRunner.Kill
      split <;> rfl
    have hcon2 : (ContainerRunner.Kill ccon (Except.ok ())).2.2 = Except.ok () := by
      unfold ContainerRunner.Kill
      split <;> rfl
    exact ⟨hcmd2, by rw [hcmd1]; exact hcmd2, hcon2, by rw [hcon1]; exact hcon2⟩

/-- C5 witness: Kill of a never-started container runner returns nil and
performs only the resource cleanup. -/
theorem kill_idempotent_and_prestart_witness :
    ContainerRunner.Kill
        { hostSocketDir := ("/tmp/s").toList, image := ("img").toList, id := [] }
        (Except.ok ()) =
      ({ hostSocketDir := ("/tmp/s").toList, image := ("img").toList, id := [] },
        { stopRequested := false, clientClosed := true,
          removedDir := some (("/tmp/s").toList) },
        Except.ok ()) :=
  (kill_idempotent_and_prestart { path := ("/p").toList, pid := 0, process := none }
    { hostSocketDir := ("/tmp/s").toList, image := ("img").toList, id := [] }
    (Except.ok ()) (Except.ok ())).2.1 rfl

/-- C7: Wait returns nil when the status report carries no error, a
failure whose message equals the status's error message when it does,
and the transport error from the error channel unchanged. -/
theorem containerWait_outcomes (c : ContainerRunner) :
    (ContainerRunner.Wait c (WaitMsg.statusCh none)).2 = Except.ok () ∧
    (∀ msg, (ContainerRunner.Wait c (WaitMsg.statusCh (some msg))).2 = Except.error msg) ∧
    (∀ e, (ContainerRunner.Wait c (WaitMsg.errCh (some e))).2 = Except.error e) :=
  ⟨rfl, fun _ => rfl, fun _ => rfl⟩

/-- C6: before any start, NewContainerRunner appends exactly one
read-write, rshared-propagated, non-recursive bind mount from the host
rendezvous directory to the fixed container path "/tmp"; appends to the
command's environment the rendezvous directory variable and — exactly
when the configured group id is non-zero — the numeric group variable;
and copies the augmented environment into the container configuration. -/
theorem newContainerRunner_prestart_mutations
    (cmd : ExecCmd) (cfg : ContainerConfig) (hostDir : List Char)
    (c : ContainerRunner) (cmd2 : ExecCmd) (cfg2 : ContainerConfig)
    (h : NewContainerRunner cmd cfg hostDir (Except.ok ()) = Except.ok (c, cmd2, cfg2)) :
    cfg2.hostConfig.mounts = cfg.hostConfig.mounts ++
      [{ type := ("bind").toList, source := hostDir, target := ("/tmp").toList,
         readOnly := false,
         bindOptions := some { propagation := ("rshared").toList, nonRecursive := true },
         consistency := ("default").toList }] ∧
    cmd2.env = (cmd.env ++ [envUnixSocketDir ++ '=' :: (("/tmp").toList)]) ++
      (if cfg.unixSocketGroup ≠ 0 then
        [envUnixSocketGroup ++ '=' :: natDecimal cfg.unixSocketGroup]
      else []) ∧
    cfg2.containerConfig.env = cmd2.env := by
  injection h with h2
  have hcmd := congrArg (fun t => t.2.1) h2
  have hcfg := congrArg (fun t => t.2.2) h2
  simp only at hcmd hcfg
  refine ⟨?_, ?_, ?_⟩
  · rw [← hcfg]
    rfl
  · rw [← hcmd]
    show (if cfg.unixSocketGroup ≠ 0 then
        (cmd.env ++ [envUnixSocketDir ++ '=' :: containerSocketDir]) ++
          [envUnixSocketGroup ++ '=' :: natDecimal cfg.unixSocketGroup]
      else cmd.env ++ [envUnixSocketDir ++ '=' :: containerSocketDir]) = _
    by_cases hg : cfg.unixSocketGroup ≠ 0
    · rw [if_pos hg, if_pos hg]
      rfl
    · rw [if_neg hg, if_neg hg, List.append_nil]
      rfl
  · rw [← hcmd, ← hcfg]

/-- C6 witness: with one pre-existing environment entry, group id 5 and
host directory "/tmp/x", the returned host config carries exactly the
appended bind mount. -/
theorem newContainerRunner_prestart_mutations_witness :
    ({ containerConfig :=
        { image := ("img").toList,
          env := [("A=1").toList, ("PLUGIN_UNIX_SOCKET_DIR=/tmp").toList,
            ("PLUGIN_UNIX_SOCKET_GROUP=5").toList] },
       hostConfig :=
        { mounts :=
            [{ type := ("bind").toList, source := ("/tmp/x").toList,
               target := ("/tmp").toList, readOnly := false,
               bindOptions := some { propagation := ("rshared").toList, nonRecursive := true },
               consistency := ("default").toList }] },
       networkConfig := (), unixSocketGroup := 5 } : ContainerConfig).hostConfig.mounts =
      ([] : List Mount) ++
        [{ type := ("bind").toList, source := ("/tmp/x").toList, target := ("/tmp").toList,
           readOnly := false,
           bindOptions := some { propagation := ("rshared").toList, nonRecursive := true },
           consistency := ("default").toList }] :=
  (newContainerRunner_prestart_mutations
    { path := ("/p").toList, env := [("A=1").toList] }
    { containerConfig := { image := ("img").toList, env := [] },
      hostConfig := { mounts := [] }, networkConfig := (), unixSocketGroup := 5 }
    (("/tmp/x").toList)
    { hostSocketDir := ("/tmp/x").toList, image := ("img").toList, id := [] }
    { path := ("/p").toList,
      env := [("A=1").toList, ("PLUGIN_UNIX_SOCKET_DIR=/tmp").toList,
        ("PLUGIN_UNIX_SOCKET_GROUP=5").toList] }
    { containerConfig :=
        { image := ("img").toList,
          env := [("A=1").toList, ("PLUGIN_UNIX_SOCKET_DIR=/tmp").toList,
            ("PLUGIN_UNIX_SOCKET_GROUP=5").toList] },
      hostConfig :=
        { mounts :=
            [{ type := ("bind").toList, source := ("/tmp/x").toList,
               target := ("/tmp").toList, readOnly := false,
               bindOptions := some { propagation := ("rshared").toList, nonRecursive := true },
               consistency := ("default").toList }] },
      networkConfig := (), unixSocketGroup := 5 }
    (by decide)).1

/-- C8: CmdRunner.ResolveAddr supports exactly tcp (delegating to the TCP
parser) and unix (returning the path as a Unix socket address); every
other network fails with the unknown address type error. -/
theorem cmdResolveAddr_networks (c : CmdRunner)
    (resolveTCPAddr : List Char → Except (List Char) NetAddr)
    (network address : List Char) :
    (network = ("tcp").toList →
      CmdRunner.ResolveAddr c resolveTCPAddr network address = resolveTCPAddr address) ∧
    (network = ("unix").toList →
      CmdRunner.ResolveAddr c resolveTCPAddr network address =
        Except.ok (NetAddr.unixAddr address)) ∧
    (network ≠ ("tcp").toList → network ≠ ("unix").toList →
      CmdRunner.ResolveAddr c resolveTCPAddr network address =
        Except.error ((("Unknown address type: ").toList) ++ address)) := by
  refine ⟨?_, ?_, ?_⟩
  · intro hn
    subst hn
    unfold CmdRunner.ResolveAddr
    rw [if_pos rfl]
  · intro hn
    subst hn
    unfold CmdRunner.ResolveAddr
    rw [if_neg (by decide), if_pos rfl]
  · intro h1 h2
    unfold CmdRunner.ResolveAddr
    rw [if_neg h1, if_neg h2]

/-- C8 witness: network "udp" yields the unknown address type error. -/
theorem cmdResolveAddr_networks_witness :
    CmdRunner.ResolveAddr { path := ("/bin/sh").toList, pid := 0, process := none }
        (fun a => Except.ok (NetAddr.tcpAddr a)) (("udp").toList) (("x").toList) =
      Except.error ((("Unknown address type: ").toList) ++ (("x").toList)) :=
  (cmdResolveAddr_networks { path := ("/bin/sh").toList, pid := 0, process := none }
    (fun a => Except.ok (NetAddr.tcpAddr a)) (("udp").toList) (("x").toList)).2.2
    (by decide) (by decide)

/-- C9: Name is fixed at construction — the snapshotted executable path
for the local runner, the configured image reference for the container
runner — and no subsequent operation changes it. -/
theorem runner_name_stable :
    (∀ cmd r1 r2 c, NewCmdRunner cmd r1 r2 = Except.ok c → CmdRunner.Name c = cmd.path) ∧
    (∀ (c : CmdRunner) r, CmdRunner.Name (CmdRunner.Start c r).1 = CmdRunner.Name c) ∧
    (∀ (c : CmdRunner) r, CmdRunner.Name (CmdRunner.Kill c r).1 = CmdRunner.Name c) ∧
    (∀ (c : CmdRunner) r, CmdRunner.Name (CmdRunner.Wait c r).1 = CmdRunner.Name c) ∧
    (∀ cmd cfg dir r c cmd2 cfg2,
      NewContainerRunner cmd cfg dir r = Except.ok (c, cmd2, cfg2) →
      ContainerRunner.Name c = cfg.containerConfig.image) ∧
    (∀ (c : ContainerRunner) r1 r2 r3,
      ContainerRunner.Name (ContainerRunner.Start c r1 r2 r3).1 = ContainerRunner.Name c) ∧
    (∀ (c : ContainerRunner) r,
      ContainerRunner.Name (ContainerRunner.Kill c r).1 = ContainerRunner.Name c) ∧
    (∀ (c : ContainerRunner) m,
      ContainerRunner.Name (ContainerRunner.Wait c m).1 = ContainerRunner.Name c) := by
  refine ⟨?_, ?_, ?_, ?_, ?_, ?_, ?_, ?_⟩
  · intro cmd r1 r2 c h
    cases r1 with
    | error e => exact Except.noConfusion h
    | ok u =>
      cases r2 with
      | error e => exact Except.noConfusion h
      | ok v =>
        injection h with h2
        rw [← h2]
        rfl
  · intro c r
    cases r <;> rfl
  · intro c r
    unfold CmdRunner.Kill
    cases c.process <;> rfl
  · intro c r
    rfl
  · intro cmd cfg dir r c cmd2 cfg2 h
    cases r with
    | error e => exact Except.noConfusion h
    | ok u =>
      injection h with h2
      have h3 := congrArg (fun t => t.1) h2
      simp only at h3
      rw [← h3]
      rfl
  · intro c r1 r2 r3
    cases r1 <;> cases r2 <;> cases r3 <;> rfl
  · intro c r
    unfold ContainerRunner.Kill
    split <;> rfl
  · intro c m
    cases m with
    | statusCh e => cases e <;> rfl
    | errCh e => cases e <;> rfl

/-- C9 witness: a local runner built over /bin/sh is named /bin/sh. -/
theorem runner_name_stable_witness :
    CmdRunner.Name { path := ("/bin/sh").toList, pid := 0, process := none }
      = ("/bin/sh").toList :=
  runner_name_stable.1 { path := ("/bin/sh").toList, env := [] } (Except.ok ()) (Except.ok ())
    { path := ("/bin/sh").toList, pid := 0, process := none } rfl
